import Mathlib

/-!
Shallow embedding of the `irp-attendance` Discord bot (Python sources under
`src/`) together with proofs about its attendance workflow, reminder
scheduler, report generator and user synchronisation.

Conventions of the embedding:
* Discord entities (members, voice channels, embeds) are plain structures
  carrying exactly the fields the code reads.
* The MySQL store is a `Store` value; a connection with an open transaction
  is a pending list of `DbOp` operations that only become visible in the
  store when `connection.commit()` runs; raising `mysql.connector.Error`
  during an execute is modelled by a failure schedule `failAt` giving the
  index of the `cursor.execute` call that raises (or `none` when every
  execute succeeds).  `connection.rollback()` / closing without commit
  discards the pending operations, leaving the committed store untouched.
* Timestamps are natural numbers (seconds); `datetime.now()` becomes an
  explicit parameter.
-/

/-- A guild member as the code observes it: numeric id, display name, the
ids of the roles it holds, and whether it is a bot account.  `discord.Member`
equality and hashing compare ids, so membership tests written with Python
`in` on member collections are embedded as id comparisons. -/
structure Member where
  id : Nat
  display_name : String
  role_ids : List Nat
  bot : Bool
deriving DecidableEq

/-- One field of a Discord embed (`name`, `value`, `inline`). -/
structure EmbedField where
  name : String
  value : String
  inline : Bool
deriving DecidableEq

/-- A Discord embed as used by the bot: title, optional description, fields
and an optional footer text. -/
structure Embed where
  title : String
  description : Option String
  fields : List EmbedField
  footer : Option String
deriving DecidableEq

/-- A voice channel: its id and current occupants (`channel.members`). -/
structure VoiceChannel where
  id : Nat
  members : List Member
deriving DecidableEq

/-- The slice of `discord.Interaction` read by `ExcuseView.log_attendance`:
the invoking user and the voice channel the user currently sits in
(`interaction.user.voice`; `none` when the user is not in voice).  The code
re-fetches the channel through `interaction.guild.get_channel`, which
returns this same channel object. -/
structure Interaction where
  user : Member
  user_voice : Option VoiceChannel

/-- A row of the `session` table (`models/database.py`): the insert supplies
`session_name`, `user` (the coach id rendered with `str`), `skill_group`,
`season` and the two timestamp columns, both set to `current_time`. -/
structure SessionRow where
  session_name : String
  user : String
  skill_group : String
  season : Int
  created_date : Nat
deriving DecidableEq

/-- A row of the `ledger` table: session foreign key, student id rendered
with `str`, the presence and excuse flags and the event timestamp. -/
structure LedgerRow where
  session_id : Nat
  student_id : String
  is_present : Bool
  is_excused : Bool
  event_date : Nat
deriving DecidableEq

/-- The committed state of the attendance database: the `session` table with
its auto-increment ids, the `ledger` table, and the next auto-increment id
(`cursor.lastrowid` after a session insert). -/
structure Store where
  sessions : List (Nat × SessionRow)
  ledger : List LedgerRow
  next_id : Nat
deriving DecidableEq

/-- One `cursor.execute` of an INSERT inside the attendance transaction. -/
inductive DbOp where
  | insertSession (row : SessionRow)
  | insertLedger (row : LedgerRow)
deriving DecidableEq

/-- Effect of one committed operation on the store. -/
def applyOp (st : Store) : DbOp → Store
  | .insertSession r =>
      { st with sessions := st.sessions ++ [(st.next_id, r)], next_id := st.next_id + 1 }
  | .insertLedger r => { st with ledger := st.ledger ++ [r] }

/-- Effect of a committed transaction: apply its operations in order. -/
def applyOps (st : Store) (ops : List DbOp) : Store := ops.foldl applyOp st

/-- Run the `cursor.execute` calls of a transaction against a pending
buffer.  `failAt = some k` makes the k-th execute raise `Error`, aborting
the remaining executes; the result is `none` (the exception path) in that
case and `some pending` (everything buffered, ready to commit) otherwise. -/
def runExecs (pending : List DbOp) : List DbOp → Option Nat → Option (List DbOp)
  | [], _ => some pending
  | _ :: _, some 0 => none
  | op :: rest, some (k + 1) => runExecs (pending ++ [op]) rest (some k)
  | op :: rest, none => runExecs (pending ++ [op]) rest none

/-- The ledger row written for a member found in the voice channel at commit
time (`is_present=True, is_excused=False`). -/
def presentRow (session_id : Nat) (current_time : Nat) (m : Member) : LedgerRow :=
  { session_id := session_id, student_id := toString m.id,
    is_present := true, is_excused := false, event_date := current_time }

/-- The ledger row written for a member of the snapshot-time absentee list
(`is_present=False`, `is_excused = member in excused_members`; Python `in`
compares member ids). -/
def absentRow (session_id : Nat) (current_time : Nat) (excused_members : List Member)
    (m : Member) : LedgerRow :=
  { session_id := session_id, student_id := toString m.id,
    is_present := false, is_excused := excused_members.any (fun e => e.id = m.id),
    event_date := current_time }

/-- The full list of INSERTs issued by one call of
`DatabaseManager.create_attendance_records`: the session row first, then one
ledger row per present member, then one ledger row per absent member. -/
def attendanceOps (user_id : Nat) (session_name skill_group : String) (season : Int)
    (current_time : Nat) (session_id : Nat)
    (present_members absent_members excused_members : List Member) : List DbOp :=
  DbOp.insertSession
    { session_name := session_name, user := toString user_id, skill_group := skill_group,
      season := season, created_date := current_time }
  :: (present_members.map (fun m => DbOp.insertLedger (presentRow session_id current_time m))
      ++ absent_members.map
          (fun m => DbOp.insertLedger (absentRow session_id current_time excused_members m)))

/-- `DatabaseManager.create_attendance_records`.  `conn_ok = false` models
`create_connection` returning `None` (immediate `return False`).  Otherwise
the INSERTs run inside one transaction: on success `connection.commit()`
publishes every pending row and the function returns `True`; on a raised
`Error` the handler calls `connection.rollback()` and returns `False`,
leaving the committed store unchanged. -/
def create_attendance_records (st : Store) (conn_ok : Bool) (failAt : Option Nat)
    (user_id : Nat) (session_name skill_group : String) (season : Int) (current_time : Nat)
    (present_members absent_members excused_members : List Member) : Store × Bool :=
  if conn_ok = false then (st, false)
  else
    match runExecs []
        (attendanceOps user_id session_name skill_group season current_time st.next_id
          present_members absent_members excused_members) failAt with
    | some pending => (applyOps st pending, true)
    | none => (st, false)

/-- The mutable state of `views/attendance.py`s `ExcuseView`: the
snapshot-time absentee list, the original embed rendered by `take`, the set
of excused members (a Python `set`, keyed by member id), the session
parameters, and whether the Log Attendance button has been disabled. -/
structure ExcuseView where
  absent_members : List Member
  original_embed : Embed
  excused_members : List Member
  session_name : String
  skill_group : String
  season : Int
  log_disabled : Bool

/-- `ExcuseView.log_attendance`.  If the invoker is not in a voice channel
the call is refused with no database access.  Otherwise `present_members`
is read from the invoker's current voice channel and
`create_attendance_records` runs; only on success is the log button
disabled.  The handler performs no check of `log_disabled` and no role
check on the invoker. -/
def log_attendance (v : ExcuseView) (st : Store) (i : Interaction)
    (conn_ok : Bool) (failAt : Option Nat) (current_time : Nat) :
    ExcuseView × Store × Bool :=
  match i.user_voice with
  | none => (v, st, false)
  | some vc =>
      let present_members := vc.members
      let r := create_attendance_records st conn_ok failAt i.user.id v.session_name
        v.skill_group v.season current_time present_members v.absent_members v.excused_members
      if r.2 then ({ v with log_disabled := true }, r.1, true) else (v, r.1, false)

/-- Python substring test `pat in s` over character lists: `pat` occurs
contiguously somewhere in `s`. -/
def charsContain (pat : List Char) : List Char → Bool
  | [] => pat.isEmpty
  | c :: rest => pat.isPrefixOf (c :: rest) || charsContain pat rest

/-- Python substring test `pat in s` on strings. -/
def strContains (s pat : String) : Bool := charsContain pat.data s.data

/-- Python `s.startswith(pre)`. -/
def strStarts (s pre : String) : Bool := pre.data.isPrefixOf s.data

/-- Python `s.split(sep)` for a one-character separator, over char lists:
splitting an empty text yields one empty part, as in Python. -/
def splitOnChar (sep : Char) : List Char → List (List Char)
  | [] => [[]]
  | c :: rest =>
      let r := splitOnChar sep rest
      if c = sep then [] :: r else (c :: r.headD []) :: r.tail

/-- Python `s.split(sep)` on strings. -/
def splitStr (sep : Char) (s : String) : List String :=
  (splitOnChar sep s.data).map String.mk

/-- Python `"\n".join(lines)`. -/
def joinLines : List String → String
  | [] => ""
  | [s] => s
  | s :: rest => s ++ "\n" ++ joinLines rest

/-- Body of the line loop in `ExcuseView.student_selected`: the field value
is split on newlines, each line containing the selected members display
name gets `" (Excused ✓)"` appended, and the lines are re-joined. -/
def annotateValue (display_name value : String) : String :=
  joinLines
    ((splitStr '\n' value).map
      (fun line => if strContains line display_name then line ++ " (Excused ✓)" else line))

/-- The embed displayed after an excuse selection: a copy of the ORIGINAL
embed (`self.original_embed.copy()`) in which every field whose name starts
with `"Absent Students"` has the selected members lines annotated.  Note
the render starts from the original embed of the snapshot, not from the
currently displayed one. -/
def renderExcused (orig : Embed) (selected : Member) : Embed :=
  { orig with
    fields := orig.fields.map (fun f =>
      if strStarts f.name "Absent Students" then
        { f with value := annotateValue selected.display_name f.value }
      else f) }

/-- `ExcuseView.student_selected`: look the selected id up in
`absent_members` (Python `next(m for m in self.absent_members if m.id == selected_id)`;
the surrounding `try` turns a failed lookup into an error message with no
state change), add the member to the excused set (`set.add`, keyed by
member id), and display `renderExcused` of the original embed.  Returns the
updated view and the embed now shown (`none` on the error path). -/
def student_selected (v : ExcuseView) (selected_id : Nat) : ExcuseView × Option Embed :=
  match v.absent_members.find? (fun m => m.id = selected_id) with
  | none => (v, none)
  | some selected_member =>
      let excused :=
        if v.excused_members.any (fun e => e.id = selected_member.id) then v.excused_members
        else selected_member :: v.excused_members
      ({ v with excused_members := excused },
       some (renderExcused v.original_embed selected_member))

/-- A sequence of excuse selections applied to a view, most recent last. -/
def runSelects (v : ExcuseView) (ids : List Nat) : ExcuseView :=
  ids.foldl (fun w sid => (student_selected w sid).1) v

/-- The allow-listed role ids (`config/discord.py`, `ALLOWED_ROLE_IDS`). -/
def ALLOWED_ROLE_IDS : List Nat := [1329341459329191948]

/-- Whether a member holds the coach role
(`any(role.id in ALLOWED_ROLE_IDS for role in member.roles)`). -/
def isCoach (m : Member) : Bool := m.role_ids.any (fun r => ALLOWED_ROLE_IDS.contains r)

/-- Lookup in the `coach_voice_states` dictionary. -/
def lookupState : List (Nat × Nat) → Nat → Option Nat
  | [], _ => none
  | (k, v) :: rest, mid => if k = mid then some v else lookupState rest mid

/-- Removal of every entry under a key, the shared core of dictionary
assignment and `pop`. -/
def removeKey (mid : Nat) : List (Nat × Nat) → List (Nat × Nat)
  | [] => []
  | (k, v) :: rest => if k = mid then removeKey mid rest else (k, v) :: removeKey mid rest

/-- Dictionary assignment `coach_voice_states[id] = t`. -/
def setState (l : List (Nat × Nat)) (mid t : Nat) : List (Nat × Nat) :=
  (mid, t) :: removeKey mid l

/-- Dictionary removal `coach_voice_states.pop(id, None)`. -/
def popState (l : List (Nat × Nat)) (mid : Nat) : List (Nat × Nat) :=
  removeKey mid l

/-- The mutable state of `VoiceReminderCog`: the per-member voice-join
timestamps and the set of member ids already reminded this epoch. -/
structure ReminderState where
  coach_voice_states : List (Nat × Nat)
  reminded_coaches : List Nat

/-- Loop body of `check_voice_duration` over the filtered coach list of a
tick at time `now`: a coach with no recorded join time has it initialised
to `now` (and gets no reminder this tick); otherwise a reminder is sent
exactly when `now - join_time >= 300` seconds, adding the coach to
`reminded_coaches`.  Returns the updated state and the ids reminded, in
send order. -/
def tickLoop (s : ReminderState) (now : Nat) : List Member → ReminderState × List Nat
  | [] => (s, [])
  | c :: rest =>
      match lookupState s.coach_voice_states c.id with
      | none =>
          tickLoop { s with coach_voice_states := setState s.coach_voice_states c.id now }
            now rest
      | some join_time =>
          if 300 ≤ now - join_time then
            let r := tickLoop { s with reminded_coaches := c.id :: s.reminded_coaches } now rest
            (r.1, c.id :: r.2)
          else tickLoop s now rest

/-- `VoiceReminderCog.check_voice_duration` for one tick at time `now`,
with `occupants` the members currently in voice channels (the guild is
assumed to have its attendance channel configured; members sit in at most
one channel, so the per-channel coach lists are flattened).  The coach list
is filtered up front against the role allow-list and the reminded set, as
in the source. -/
def check_voice_duration (s : ReminderState) (now : Nat) (occupants : List Member) :
    ReminderState × List Nat :=
  tickLoop s now
    (occupants.filter (fun m => isCoach m && !s.reminded_coaches.contains m.id))

/-- `VoiceReminderCog.initialize_voice_states`: set the join timestamp of
every tracked member currently in voice to the current time. -/
def initializeVoiceStates (occupants : List Member) (t : Nat) : List (Nat × Nat) :=
  (occupants.filter (fun m => isCoach m)).map (fun m => (m.id, t))

/-- An event observed by the reminder cog: a tracked-role check happens
inside each handler.  `join`/`leave` are the `on_voice_state_update`
transitions from/to no channel; `tick` is one firing of
`check_voice_duration`; `reset` is one firing of `reset_daily_reminders`
(clear both maps, then re-initialise timers for current occupants). -/
inductive REvent where
  | join (m : Member) (t : Nat)
  | leave (m : Member)
  | tick (t : Nat) (occupants : List Member)
  | reset (t : Nat) (occupants : List Member)

/-- Whether an event is the daily reset. -/
def REvent.isReset : REvent → Bool
  | .reset _ _ => true
  | _ => false

/-- One step of the reminder cog: the next state and the member ids
reminded during the event. -/
def rstep (s : ReminderState) : REvent → ReminderState × List Nat
  | .join m t =>
      if isCoach m then
        ({ s with coach_voice_states := setState s.coach_voice_states m.id t }, [])
      else (s, [])
  | .leave m =>
      if isCoach m then
        ({ s with coach_voice_states := popState s.coach_voice_states m.id }, [])
      else (s, [])
  | .tick t occupants => check_voice_duration s t occupants
  | .reset t occupants =>
      ({ coach_voice_states := initializeVoiceStates occupants t, reminded_coaches := [] }, [])

/-- All reminders produced along a trace of events, in order. -/
def traceReminders (s : ReminderState) : List REvent → List Nat
  | [] => []
  | e :: rest => (rstep s e).2 ++ traceReminders (rstep s e).1 rest

/-- A guild as `create_session_field_content` reads it:
`guild.get_member(id)` searches the member roster by id. -/
structure Guild where
  members : List Member

/-- `guild.get_member`: the first roster entry with the given id. -/
def Guild.get_member (g : Guild) (mid : Nat) : Option Member :=
  g.members.find? (fun m => m.id = mid)

/-- One row of the grouped absence query (`AttendanceReport.get_report_data`).
`session_date` carries the already-formatted `%Y-%m-%d` date; `absent_data`
is the `GROUP_CONCAT` column: `none` for SQL NULL, otherwise a
comma-separated list of `student_id:is_excused` pairs (`is_excused` rendered
as `0` or `1`). -/
structure SessionData where
  session_date : String
  session_name : String
  skill_group : String
  total_absences : Nat
  excused_absences : Nat
  absent_data : Option String

/-- Split of one `student_id:is_excused` pair on `:`.  The SQL query always
produces exactly one `:` per pair and a numeric id; the fallback arms keep
the split total and are unreachable for query-shaped input. -/
def parseAbsentPair (g : Guild) (pair : String) : Option String :=
  match splitStr ':' pair with
  | [sid, exc] =>
      match sid.toNat? with
      | none => none
      | some n =>
          match g.get_member n with
          | none => none
          | some m =>
              some (m.display_name ++ " " ++
                (if exc.toNat?.getD 0 ≠ 0 then "(Excused)" else "(Unexcused)"))
  | _ => none

/-- The numbered absent-student lines of one session field
(`for i, student in enumerate(absent_students, 1)`). -/
def numberLines : Nat → List String → String
  | _, [] => ""
  | i, s :: rest => toString i ++ ". " ++ s ++ "\n" ++ numberLines (i + 1) rest

/-- `AttendanceReport.create_session_field_content`: field name and value
for one grouped session row. -/
def create_session_field_content (session : SessionData) (g : Guild) : String × String :=
  let absent_students : List String :=
    match session.absent_data with
    | none => []
    | some s => if s = "" then [] else (splitStr ',' s).filterMap (parseAbsentPair g)
  let field_name := "Session: " ++ session.session_name ++ " on [" ++ session.session_date
    ++ "] for " ++ session.skill_group
  let listing :=
    if absent_students.isEmpty then "Everyone Present! 🎉\n"
    else numberLines 1 absent_students
  let field_value := "**Absent:**\n" ++ listing ++ "\nTotal Absences: **"
    ++ toString session.total_absences ++ "** (Excused: "
    ++ toString session.excused_absences ++ ")"
  (field_name, field_value)

/-- Truncation applied before a field is added
(`field_value[:MAX_FIELD_VALUE_LENGTH - 3] + "..."` when the value exceeds
1024 characters). -/
def truncValue (s : String) : String :=
  if 1024 < s.length then String.mk (s.data.take 1021) ++ "..." else s

/-- The field added to the current report embed for one session row:
name/value from `create_session_field_content`, value truncated,
`inline=False`. -/
def sessionField (g : Guild) (session : SessionData) : EmbedField :=
  { name := (create_session_field_content session g).1,
    value := truncValue (create_session_field_content session g).2, inline := false }

/-- A fresh continuation embed (`"... (Continued)"`, no description). -/
def contEmbed (season : Int) : Embed :=
  { title := "Attendance Report - Season " ++ toString season ++ " (Continued)",
    description := none, fields := [], footer := none }

/-- The loop of `create_report_embeds` over the session rows, carrying the
finished embeds, the embed under construction and its field count: at 25
fields the current embed is flushed and a continuation embed started before
the next field is added. -/
def reportLoop (g : Guild) (season : Int) (embeds : List Embed) (cur : Embed) (cnt : Nat) :
    List SessionData → List Embed
  | [] => if 0 < cnt then embeds ++ [cur] else embeds
  | session :: rest =>
      if 25 ≤ cnt then
        reportLoop g season (embeds ++ [cur])
          { contEmbed season with fields := [sessionField g session] } 1 rest
      else
        reportLoop g season embeds
          { cur with fields := cur.fields ++ [sessionField g session] } (cnt + 1) rest

/-- Footer numbering (`for i, embed in enumerate(embeds, 1)` with
`set_footer(text=f"Page i/total")`). -/
def addFooters (total : Nat) : Nat → List Embed → List Embed
  | _, [] => []
  | i, e :: rest =>
      { e with footer := some s!"Page {i}/{total}" } :: addFooters total (i + 1) rest

/-- The first embed of a report (title, generation-time description). -/
def headEmbed (season : Int) (granularity now : String) : Embed :=
  { title := "Attendance Report - Season " ++ toString season,
    description := some (granularity ++ " report generated at " ++ now),
    fields := [], footer := none }

/-- The single page returned for an empty result set: the head embed with
one "No Data" field and, because the function returns before the footer
loop, no footer. -/
def noDataEmbed (season : Int) (granularity now : String) : Embed :=
  { headEmbed season granularity now with
    fields := [{ name := "No Data",
                 value := "No attendance records found for the specified period.",
                 inline := false }] }

/-- `AttendanceReport.create_report_embeds`: empty data returns the single
"No Data" page immediately; otherwise the rows are paginated into embeds of
at most 25 fields each and every page gets an `i/total` footer. -/
def create_report_embeds (data : List SessionData) (season : Int)
    (granularity now : String) (g : Guild) : List Embed :=
  if data.isEmpty then [noDataEmbed season granularity now]
  else
    let embeds := reportLoop g season [] (headEmbed season granularity now) 0 data
    addFooters embeds.length 1 embeds

/-- `config/discord.py` `SKILL_GROUPS` role ids. -/
def SKILL_GROUP_ADVANCED : Nat := 1329349873790881853

/-- `config/discord.py` `SKILL_GROUPS` role id for Mechanics. -/
def SKILL_GROUP_MECHANICS : Nat := 1329360868714086461

/-- `config/discord.py` `USER_ROLE_TYPES`: role id to user type. -/
def USER_ROLE_TYPES : List (Nat × String) :=
  [(1329341459329191948, "coach"), (1234567890123456, "admin"),
   (2345678901234567, "manager"), (3456789012345678, "student"),
   (4567890123456789, "graduate")]

/-- `config/discord.py` `ROLE_PRIORITY` (higher index, higher priority). -/
def ROLE_PRIORITY : List String := ["student", "graduate", "manager", "admin", "coach"]

/-- The `member_role_types` list collected in `sync_users`: the mapped type
of every member role present in `USER_ROLE_TYPES`, in role order. -/
def memberRoleTypes (m : Member) : List String :=
  m.role_ids.filterMap (fun r => (USER_ROLE_TYPES.find? (fun p => p.1 = r)).map (·.2))

/-- The `skill_group` computed in the same loop: the last of the members
roles that is one of the two skill-group roles decides, else `None`. -/
def computeSkillGroup (role_ids : List Nat) : Option String :=
  role_ids.foldl
    (fun sg r =>
      if r = SKILL_GROUP_ADVANCED then some "Advanced"
      else if r = SKILL_GROUP_MECHANICS then some "Mechanics" else sg) none

/-- Python sort key `ROLE_PRIORITY.index(x) if x in ROLE_PRIORITY else -1`. -/
def priorityVal (t : String) : Int :=
  if ROLE_PRIORITY.contains t then (ROLE_PRIORITY.indexOf t : Int) else -1

/-- `sorted(member_role_types, key=priority)[-1]`: the maximal-priority
type; Python sort is stable, so ties resolve to the latest occurrence. -/
def selectUserType : List String → Option String
  | [] => none
  | t :: rest =>
      some (rest.foldl (fun best x => if priorityVal best ≤ priorityVal x then x else best) t)

/-- A row of the `user` table as touched by `sync_users`. -/
structure UserRow where
  name : String
  discord_id : String
  user_type : String
  skill_group : Option String
  is_active : Nat
deriving DecidableEq

/-- The eligibility test of one `sync_users` loop iteration: bots are
skipped, members with no mapped role are skipped, and the selected type
must be `student` or `coach` (the tables enum constraint).  Returns the
user type and skill group to store when the member is synced. -/
def syncEligible (m : Member) : Option (String × Option String) :=
  if m.bot then none
  else
    match selectUserType (memberRoleTypes m) with
    | none => none
    | some ut =>
        if ut = "student" ∨ ut = "coach" then some (ut, computeSkillGroup m.role_ids)
        else none

/-- The row values written for a synced member: display name, stringified
id, selected type, skill group, `is_active = 1` (both the UPDATE and the
INSERT write exactly these values). -/
def canonRow (m : Member) (ut : String) (sg : Option String) : UserRow :=
  { name := m.display_name, discord_id := toString m.id, user_type := ut,
    skill_group := sg, is_active := 1 }

/-- One iteration of the `sync_users` member loop over
`(table, users_added, users_updated)`: an existing `discord_id` row is
UPDATEd (every matching row), otherwise a new row is INSERTed. -/
def syncStep (acc : List UserRow × Nat × Nat) (m : Member) : List UserRow × Nat × Nat :=
  match syncEligible m with
  | none => acc
  | some (ut, sg) =>
      if acc.1.any (fun u => u.discord_id = toString m.id) then
        (acc.1.map (fun u => if u.discord_id = toString m.id then canonRow m ut sg else u),
         acc.2.1, acc.2.2 + 1)
      else (acc.1 ++ [canonRow m ut sg], acc.2.1 + 1, acc.2.2)

/-- `DatabaseManager.sync_users` on the success path: `conn_ok = false`
models `create_connection` returning `None` (`return False, 0, 0`); a
raised `Error` would likewise return `(False, 0, 0)` with the uncommitted
transaction discarded when the connection closes.  On success the member
loop runs to completion and the transaction commits, returning
`(True, users_added, users_updated)`. -/
def sync_users (table : List UserRow) (conn_ok : Bool) (members : List Member) :
    List UserRow × Bool × Nat × Nat :=
  if conn_ok = false then (table, false, 0, 0)
  else
    let r := members.foldl syncStep (table, 0, 0)
    (r.1, true, r.2.1, r.2.2)

/-! ## Helper lemmas: the attendance transaction -/

/-- Unfolding lemma: applying a transaction step by step. -/
lemma applyOps_cons (st : Store) (op : DbOp) (ops : List DbOp) :
    applyOps st (op :: ops) = applyOps (applyOp st op) ops := rfl

/-- With no failure scheduled, every execute buffers its operation. -/
lemma runExecs_none_eq (ops : List DbOp) : ∀ pending, runExecs pending ops none = some (pending ++ ops) := by
  induction ops with
  | nil => intro pending; simp [runExecs]
  | cons op rest ih =>
      intro pending
      simpa [runExecs, List.append_assoc] using ih (pending ++ [op])

/-- A transaction that reaches commit has buffered exactly its operations. -/
lemma runExecs_some_eq (ops : List DbOp) :
    ∀ pending failAt p, runExecs pending ops failAt = some p → p = pending ++ ops := by
  induction ops with
  | nil =>
      intro pending failAt p h
      simp [runExecs] at h
      simp [h.symm]
  | cons op rest ih =>
      intro pending failAt p h
      match failAt with
      | none =>
          have := ih (pending ++ [op]) none p (by simpa [runExecs] using h)
          simpa [List.append_assoc] using this
      | some 0 => simp [runExecs] at h
      | some (k + 1) =>
          have := ih (pending ++ [op]) (some k) p (by simpa [runExecs] using h)
          simpa [List.append_assoc] using this

/-- Committing a batch of ledger inserts appends exactly those rows. -/
lemma applyOps_ledger_map (rows : List LedgerRow) :
    ∀ st, applyOps st (rows.map DbOp.insertLedger) = { st with ledger := st.ledger ++ rows } := by
  induction rows with
  | nil => intro st; simp [applyOps]
  | cons r rest ih =>
      intro st
      rw [List.map_cons, applyOps_cons, ih]
      simp [applyOp]

/-- The store obtained when one call of `create_attendance_records`
commits: a fresh session row under the next auto-increment id, one present
ledger row per present member and one absent ledger row per absent member,
appended in that order. -/
def commitResult (st : Store) (user_id : Nat) (session_name skill_group : String)
    (season : Int) (current_time : Nat)
    (present_members absent_members excused_members : List Member) : Store :=
  { sessions := st.sessions ++
      [(st.next_id, { session_name := session_name, user := toString user_id,
                      skill_group := skill_group, season := season,
                      created_date := current_time })],
    ledger := st.ledger ++ present_members.map (presentRow st.next_id current_time)
      ++ absent_members.map (absentRow st.next_id current_time excused_members),
    next_id := st.next_id + 1 }

/-- Applying the full attendance transaction yields `commitResult`. -/
lemma applyOps_attendanceOps (st : Store) (user_id : Nat)
    (session_name skill_group : String) (season : Int) (current_time : Nat)
    (present_members absent_members excused_members : List Member) :
    applyOps st (attendanceOps user_id session_name skill_group season current_time st.next_id
        present_members absent_members excused_members) =
      commitResult st user_id session_name skill_group season current_time
        present_members absent_members excused_members := by
  rw [attendanceOps, applyOps_cons]
  have hmap :
      (present_members.map (fun m => DbOp.insertLedger (presentRow st.next_id current_time m))
        ++ absent_members.map (fun m =>
            DbOp.insertLedger (absentRow st.next_id current_time excused_members m))) =
      ((present_members.map (presentRow st.next_id current_time)
        ++ absent_members.map (absentRow st.next_id current_time excused_members)).map
          DbOp.insertLedger) := by
    simp [List.map_map, Function.comp_def]
  rw [hmap, applyOps_ledger_map]
  simp [applyOp, commitResult, List.append_assoc]

/-- Every call of `create_attendance_records` either fails with the store
untouched or commits the whole batch. -/
lemma create_attendance_records_cases (st : Store) (conn_ok : Bool) (failAt : Option Nat)
    (user_id : Nat) (session_name skill_group : String) (season : Int) (current_time : Nat)
    (present_members absent_members excused_members : List Member) :
    create_attendance_records st conn_ok failAt user_id session_name skill_group season
        current_time present_members absent_members excused_members = (st, false) ∨
    create_attendance_records st conn_ok failAt user_id session_name skill_group season
        current_time present_members absent_members excused_members =
      (commitResult st user_id session_name skill_group season current_time
        present_members absent_members excused_members, true) := by
  by_cases hc : conn_ok = false
  · left; simp [create_attendance_records, hc]
  · rw [create_attendance_records, if_neg hc]
    cases hr : runExecs []
        (attendanceOps user_id session_name skill_group season current_time st.next_id
          present_members absent_members excused_members) failAt with
    | none => left; rfl
    | some pending =>
        right
        have hp := runExecs_some_eq _ [] failAt pending hr
        simp only [List.nil_append] at hp
        subst hp
        show (applyOps st (attendanceOps user_id session_name skill_group season current_time
          st.next_id present_members absent_members excused_members), true) = _
        rw [applyOps_attendanceOps]

/-- A failure-free call of `create_attendance_records` over a live
connection commits and returns `True`. -/
lemma create_attendance_records_success (st : Store) (user_id : Nat)
    (session_name skill_group : String) (season : Int) (current_time : Nat)
    (present_members absent_members excused_members : List Member) :
    create_attendance_records st true none user_id session_name skill_group season
        current_time present_members absent_members excused_members =
      (commitResult st user_id session_name skill_group season current_time
        present_members absent_members excused_members, true) := by
  rw [create_attendance_records, if_neg (by simp), runExecs_none_eq]
  show (applyOps st ([] ++ attendanceOps user_id session_name skill_group season current_time
    st.next_id present_members absent_members excused_members), true) = _
  rw [List.nil_append, applyOps_attendanceOps]

/-- Reduction of `log_attendance` when the invoker is in a voice channel. -/
lemma log_attendance_some_eq (v : ExcuseView) (st : Store) (u : Member) (vc : VoiceChannel)
    (conn_ok : Bool) (failAt : Option Nat) (t : Nat) :
    log_attendance v st ⟨u, some vc⟩ conn_ok failAt t =
      if (create_attendance_records st conn_ok failAt u.id v.session_name v.skill_group
            v.season t vc.members v.absent_members v.excused_members).2 then
        ({ v with log_disabled := true },
         (create_attendance_records st conn_ok failAt u.id v.session_name v.skill_group
            v.season t vc.members v.absent_members v.excused_members).1, true)
      else
        (v,
         (create_attendance_records st conn_ok failAt u.id v.session_name v.skill_group
            v.season t vc.members v.absent_members v.excused_members).1, false) := rfl

/-- Reduction of `log_attendance` when the invoker is not in voice. -/
lemma log_attendance_none_eq (v : ExcuseView) (st : Store) (u : Member)
    (conn_ok : Bool) (failAt : Option Nat) (t : Nat) :
    log_attendance v st ⟨u, none⟩ conn_ok failAt t = (v, st, false) := rfl

/-! ## Claim theorems: commit path -/

/-- C5: every commit is atomic — when `create_attendance_records` reports
success the session row and all ledger rows are persisted together
(`commitResult`), and whenever it reports failure (no connection, or an
`Error` raised anywhere in the transaction) the rolled-back store is
exactly the original one, with no partial rows. -/
theorem commit_is_atomic (st : Store) (conn_ok : Bool) (failAt : Option Nat)
    (user_id : Nat) (session_name skill_group : String) (season : Int) (current_time : Nat)
    (pm am em : List Member) :
    ((create_attendance_records st conn_ok failAt user_id session_name skill_group season
        current_time pm am em).2 = true →
      (create_attendance_records st conn_ok failAt user_id session_name skill_group season
        current_time pm am em).1 =
        commitResult st user_id session_name skill_group season current_time pm am em) ∧
    ((create_attendance_records st conn_ok failAt user_id session_name skill_group season
        current_time pm am em).2 = false →
      (create_attendance_records st conn_ok failAt user_id session_name skill_group season
        current_time pm am em).1 = st) := by
  rcases create_attendance_records_cases st conn_ok failAt user_id session_name skill_group
      season current_time pm am em with h | h
  · rw [h]; exact ⟨fun h2 => (nomatch h2), fun _ => rfl⟩
  · rw [h]; exact ⟨fun _ => rfl, fun h2 => (nomatch h2)⟩

/-- Witness for `commit_is_atomic`: a dead connection and a transaction
whose second execute raises both leave a concrete store untouched. -/
theorem commit_is_atomic_witness :
    (create_attendance_records ⟨[], [], 1⟩ false none 9 "s" "Advanced" 1 100 [] [] []).1
      = ⟨[], [], 1⟩ ∧
    (create_attendance_records ⟨[], [], 1⟩ true (some 1) 9 "s" "Advanced" 1 100
        [⟨1, "Alice", [], false⟩] [] []).1 = ⟨[], [], 1⟩ :=
  ⟨(commit_is_atomic ⟨[], [], 1⟩ false none 9 "s" "Advanced" 1 100 [] [] []).2 (by decide),
   (commit_is_atomic ⟨[], [], 1⟩ true (some 1) 9 "s" "Advanced" 1 100
      [⟨1, "Alice", [], false⟩] [] []).2 (by decide)⟩

/-- C2 (amended): a successful commit writes one ledger row per member of
`present_members` (`is_present=true, is_excused=false`) followed by one
ledger row per member of `absent_members` (`is_present=false`,
`is_excused` iff the member id is in `excused_members`); a member occurring
in both lists therefore receives two rows, not one. -/
theorem commit_ledger_per_list (st : Store) (user_id : Nat)
    (session_name skill_group : String) (season : Int) (current_time : Nat)
    (pm am em : List Member) :
    (create_attendance_records st true none user_id session_name skill_group season
        current_time pm am em).1.ledger =
      st.ledger ++ pm.map (presentRow st.next_id current_time)
        ++ am.map (absentRow st.next_id current_time em) ∧
    (create_attendance_records st true none user_id session_name skill_group season
        current_time pm am em).2 = true := by
  rw [create_attendance_records_success]
  exact ⟨rfl, rfl⟩

/-- C2 counterexample: Bob (id 2) was absent at snapshot time but is in
voice at commit time, so he is in both lists; the commit writes TWO ledger
rows for him — one present, one absent — not a single present row. -/
theorem rejoined_member_two_rows_cex :
    (create_attendance_records ⟨[], [], 1⟩ true none 9 "s" "Advanced" 1 100
        [⟨2, "Bob", [], false⟩] [⟨1, "Alice", [], false⟩, ⟨2, "Bob", [], false⟩] []).1.ledger.filter
      (fun r => r.student_id = "2")
    = [⟨1, "2", true, false, 100⟩, ⟨1, "2", false, false, 100⟩] := by decide

/-- C3: `log_attendance` applies no role or allow-list check to the
invoker — for ANY invoking member that is currently in ANY voice channel
the commit proceeds, and the present rows written are exactly the occupants
of the invoker's current channel (the channel is arbitrary, not tied to
the one in which attendance was taken); an invoker outside voice is
refused with the store untouched. -/
theorem log_attendance_no_role_check (v : ExcuseView) (st : Store) (i : Interaction)
    (vc : VoiceChannel) (t : Nat) (hvc : i.user_voice = some vc) :
    (log_attendance v st i true none t).2.2 = true ∧
    (log_attendance v st i true none t).2.1.ledger =
      st.ledger ++ vc.members.map (presentRow st.next_id t)
        ++ v.absent_members.map (absentRow st.next_id t v.excused_members) ∧
    (∀ st2 t2, (log_attendance v st2 ⟨i.user, none⟩ true none t2).2.1 = st2) := by
  obtain ⟨u, uv⟩ := i
  cases hvc
  refine ⟨?_, ?_, fun st2 t2 => rfl⟩ <;>
    simp [log_attendance_some_eq, create_attendance_records_success, commitResult]

/-- Witness for `log_attendance_no_role_check`: a role-less invoker in a
channel unrelated to the snapshot commits successfully. -/
theorem log_attendance_no_role_check_witness :
    (log_attendance ⟨[⟨1, "Alice", [], false⟩], ⟨"t", none, [], none⟩, [], "s", "Advanced", 1, false⟩
        ⟨[], [], 1⟩ ⟨⟨3, "Carol", [], false⟩, some ⟨99, [⟨3, "Carol", [], false⟩]⟩⟩
        true none 100).2.2 = true :=
  (log_attendance_no_role_check
    ⟨[⟨1, "Alice", [], false⟩], ⟨"t", none, [], none⟩, [], "s", "Advanced", 1, false⟩
    ⟨[], [], 1⟩ ⟨⟨3, "Carol", [], false⟩, some ⟨99, [⟨3, "Carol", [], false⟩]⟩⟩
    ⟨99, [⟨3, "Carol", [], false⟩]⟩ 100 rfl).1

/-- C1 counterexample: with an empty store, both of two successive
`log_attendance` calls against the same snapshot succeed and the store
ends with TWO session rows — the second commit is not rejected server-side
and does not perform zero writes. -/
theorem double_commit_two_sessions_cex :
    (let v : ExcuseView :=
       ⟨[⟨1, "Alice", [], false⟩], ⟨"t", none, [], none⟩, [], "s", "Advanced", 1, false⟩
     let i : Interaction := ⟨⟨3, "Carol", [], false⟩, some ⟨5, [⟨3, "Carol", [], false⟩]⟩⟩
     let r1 := log_attendance v ⟨[], [], 1⟩ i true none 100
     let r2 := log_attendance r1.1 r1.2.1 i true none 200
     (r1.2.2, r2.2.2, r2.2.1.sessions.length)) = (true, true, 2) := by decide

/-- C1 (amended): after a first successful commit the view marks its log
control disabled, but the handler performs no server-side terminal-state
check — a second `log_attendance` call that reaches the handler for the
same snapshot succeeds again and performs a full second write, so the
store ends with two session rows (and two full sets of ledger rows) for
the snapshot. -/
theorem double_commit_writes_twice (v : ExcuseView) (st : Store) (i : Interaction)
    (vc : VoiceChannel) (t1 t2 : Nat) (hvc : i.user_voice = some vc) :
    (log_attendance v st i true none t1).2.2 = true ∧
    (log_attendance v st i true none t1).1.log_disabled = true ∧
    (log_attendance (log_attendance v st i true none t1).1
        (log_attendance v st i true none t1).2.1 i true none t2).2.2 = true ∧
    (log_attendance (log_attendance v st i true none t1).1
        (log_attendance v st i true none t1).2.1 i true none t2).2.1.sessions.length
      = st.sessions.length + 2 := by
  obtain ⟨u, uv⟩ := i
  cases hvc
  refine ⟨?_, ?_, ?_, ?_⟩ <;>
    simp [log_attendance_some_eq, create_attendance_records_success, commitResult]

/-- Witness for `double_commit_writes_twice` at a concrete snapshot. -/
theorem double_commit_writes_twice_witness :
    (log_attendance
        (log_attendance
          ⟨[⟨1, "Alice", [], false⟩], ⟨"t", none, [], none⟩, [], "s", "Advanced", 1, false⟩
          ⟨[], [], 1⟩ ⟨⟨3, "Carol", [], false⟩, some ⟨5, [⟨3, "Carol", [], false⟩]⟩⟩
          true none 100).1
        (log_attendance
          ⟨[⟨1, "Alice", [], false⟩], ⟨"t", none, [], none⟩, [], "s", "Advanced", 1, false⟩
          ⟨[], [], 1⟩ ⟨⟨3, "Carol", [], false⟩, some ⟨5, [⟨3, "Carol", [], false⟩]⟩⟩
          true none 100).2.1
        ⟨⟨3, "Carol", [], false⟩, some ⟨5, [⟨3, "Carol", [], false⟩]⟩⟩
        true none 200).2.1.sessions.length = 0 + 2 :=
  (double_commit_writes_twice
    ⟨[⟨1, "Alice", [], false⟩], ⟨"t", none, [], none⟩, [], "s", "Advanced", 1, false⟩
    ⟨[], [], 1⟩ ⟨⟨3, "Carol", [], false⟩, some ⟨5, [⟨3, "Carol", [], false⟩]⟩⟩
    ⟨5, [⟨3, "Carol", [], false⟩]⟩ 100 200 rfl).2.2.2

/-! ## Claim theorems: excuse marking and rendering -/

/-- One excuse selection never changes the absentee list. -/
lemma student_selected_absent_eq (v : ExcuseView) (sid : Nat) :
    (student_selected v sid).1.absent_members = v.absent_members := by
  cases h : v.absent_members.find? (fun m => m.id = sid) <;>
    simp [student_selected, h]

/-- One excuse selection preserves `excused_members ⊆ absent_members`. -/
lemma student_selected_subset (v : ExcuseView) (sid : Nat)
    (hsub : ∀ e ∈ v.excused_members, e ∈ v.absent_members) :
    ∀ e ∈ (student_selected v sid).1.excused_members,
      e ∈ (student_selected v sid).1.absent_members := by
  cases h : v.absent_members.find? (fun m => m.id = sid) with
  | none => simpa [student_selected, h] using hsub
  | some m =>
      have hm : m ∈ v.absent_members := List.mem_of_find?_eq_some h
      intro e he
      rw [student_selected_absent_eq]
      by_cases hex : v.excused_members.any (fun x => x.id = m.id)
      · exact hsub e (by simpa [student_selected, h, hex] using he)
      · rcases (by simpa [student_selected, h, hex] using he : e = m ∨ e ∈ v.excused_members) with
          rfl | hmem
        · exact hm
        · exact hsub e hmem

/-- C4: for every snapshot whose excused set sits inside its absentee list,
any sequence of `markExcused` calls (`student_selected`) preserves
`excused_members ⊆ absent_members`, and selecting a member that is already
excused leaves the excused set unchanged (set-level no-op). -/
theorem mark_excused_invariant (v : ExcuseView) (ids : List Nat)
    (hsub : ∀ e ∈ v.excused_members, e ∈ v.absent_members) :
    (∀ e ∈ (runSelects v ids).excused_members, e ∈ (runSelects v ids).absent_members) ∧
    (∀ sid m, v.absent_members.find? (fun x => x.id = sid) = some m →
      v.excused_members.any (fun e => e.id = m.id) = true →
      (student_selected v sid).1.excused_members = v.excused_members) := by
  constructor
  · induction ids generalizing v with
    | nil => simpa [runSelects] using hsub
    | cons sid rest ih =>
        have hstep := student_selected_subset v sid hsub
        simpa [runSelects] using ih (student_selected v sid).1 hstep
  · intro sid m hfind hany
    simp [student_selected, hfind, hany]

/-- Witness for `mark_excused_invariant`: re-selecting the already-excused
Alice leaves the concrete excused set unchanged. -/
theorem mark_excused_invariant_witness :
    (student_selected
        ⟨[⟨1, "Alice", [], false⟩], ⟨"t", none, [], none⟩, [⟨1, "Alice", [], false⟩],
         "s", "Advanced", 1, false⟩ 1).1.excused_members = [⟨1, "Alice", [], false⟩] :=
  (mark_excused_invariant
    ⟨[⟨1, "Alice", [], false⟩], ⟨"t", none, [], none⟩, [⟨1, "Alice", [], false⟩],
     "s", "Advanced", 1, false⟩ [] (by decide)).2 1 ⟨1, "Alice", [], false⟩
    (by decide) (by decide)

/-- C6 counterexample: after excusing Alice (id 1) and then Bob (id 2),
Alice is still in the excused set but the embed displayed by the second
call — recomputed from the ORIGINAL embed — carries an annotation only on
Bob's line; Alice's earlier annotation is gone. -/
theorem excuse_annotation_lost_cex :
    (let v : ExcuseView :=
       ⟨[⟨1, "Alice", [], false⟩, ⟨2, "Bob", [], false⟩],
        ⟨"t", none, [⟨"Absent Students (2)", "1. Alice\n2. Bob", false⟩], none⟩,
        [], "s", "Advanced", 1, false⟩
     let r1 := student_selected v 1
     let r2 := student_selected r1.1 2
     (r2.1.excused_members.map (fun m => m.id),
      r2.2.map (fun e => e.fields.map (fun f => f.value))))
    = ([2, 1], some ["1. Alice\n2. Bob (Excused ✓)"]) := by decide

/-- C6 (amended): the artifact displayed after a `markExcused` call is a
pure function of the ORIGINAL snapshot artifact and the just-selected
member only — not of the accumulated excused set: re-invoking the call on
the same member renders the identical artifact (so the annotation is never
duplicated), but annotations from earlier calls on other members are not
preserved, each render starting from the unannotated original embed. -/
theorem excuse_render_pure_of_original (v : ExcuseView) (sid : Nat) :
    (student_selected v sid).2 =
      (v.absent_members.find? (fun m => m.id = sid)).map (renderExcused v.original_embed) ∧
    (student_selected (student_selected v sid).1 sid).2 = (student_selected v sid).2 := by
  cases h : v.absent_members.find? (fun m => m.id = sid) with
  | none => exact ⟨by simp [student_selected, h], by simp [student_selected, h]⟩
  | some m => exact ⟨by simp [student_selected, h], by simp [student_selected, h]⟩

/-! ## Helper lemmas: reminder scheduler -/

/-- Lookup after removing a key: the removed key reads `none`, every other
key is unaffected. -/
lemma lookupState_removeKey (mid : Nat) :
    ∀ l : List (Nat × Nat), ∀ x,
      lookupState (removeKey mid l) x = if x = mid then none else lookupState l x := by
  intro l
  induction l with
  | nil => intro x; rw [removeKey]; by_cases hx : x = mid <;> simp [lookupState, hx]
  | cons p rest ih =>
      intro x
      obtain ⟨k, v⟩ := p
      rw [removeKey]
      by_cases hk : k = mid
      · subst hk
        rw [if_pos rfl, ih x, lookupState]
        by_cases hx : x = k
        · simp [hx]
        · rw [if_neg hx, if_neg hx, if_neg (fun hh => hx hh.symm)]
      · rw [if_neg hk, lookupState, lookupState]
        by_cases hkx : k = x
        · subst hkx
          simp [fun hh : k = mid => hk hh]
        · rw [if_neg hkx, if_neg hkx, ih x]

/-- Lookup after a dictionary assignment. -/
lemma lookupState_setState (l : List (Nat × Nat)) (mid t x : Nat) :
    lookupState (setState l mid t) x = if x = mid then some t else lookupState l x := by
  rw [setState, lookupState, lookupState_removeKey mid l x]
  by_cases hx : x = mid
  · simp [hx]
  · rw [if_neg (fun hh : mid = x => hx hh.symm), if_neg hx, if_neg hx]

/-- Lookup after a dictionary removal. -/
lemma lookupState_popState (l : List (Nat × Nat)) (mid x : Nat) :
    lookupState (popState l mid) x = if x = mid then none else lookupState l x := by
  rw [popState, lookupState_removeKey mid l x]

/-- Reduction of the tick loop when the head coach has no recorded join
time: initialise it and continue, sending nothing for this coach. -/
lemma tickLoop_cons_none (s : ReminderState) (now : Nat) (c : Member) (rest : List Member)
    (h : lookupState s.coach_voice_states c.id = none) :
    tickLoop s now (c :: rest) =
      tickLoop { s with coach_voice_states := setState s.coach_voice_states c.id now }
        now rest := by
  rw [tickLoop, h]

/-- Reduction of the tick loop when the head coach has been in voice for at
least five minutes: remind and continue with the coach marked reminded. -/
lemma tickLoop_cons_remind (s : ReminderState) (now : Nat) (c : Member) (rest : List Member)
    (jt : Nat) (h : lookupState s.coach_voice_states c.id = some jt) (hge : 300 ≤ now - jt) :
    tickLoop s now (c :: rest) =
      ((tickLoop { s with reminded_coaches := c.id :: s.reminded_coaches } now rest).1,
       c.id :: (tickLoop { s with reminded_coaches := c.id :: s.reminded_coaches } now rest).2) := by
  rw [tickLoop, h]
  show (if 300 ≤ now - jt then
      ((tickLoop { s with reminded_coaches := c.id :: s.reminded_coaches } now rest).1,
       c.id :: (tickLoop { s with reminded_coaches := c.id :: s.reminded_coaches } now rest).2)
    else tickLoop s now rest) = _
  rw [if_pos hge]

/-- Reduction of the tick loop when the head coach has not yet reached five
minutes: nothing happens for this coach. -/
lemma tickLoop_cons_wait (s : ReminderState) (now : Nat) (c : Member) (rest : List Member)
    (jt : Nat) (h : lookupState s.coach_voice_states c.id = some jt) (hge : ¬ 300 ≤ now - jt) :
    tickLoop s now (c :: rest) = tickLoop s now rest := by
  rw [tickLoop, h]
  show (if 300 ≤ now - jt then
      ((tickLoop { s with reminded_coaches := c.id :: s.reminded_coaches } now rest).1,
       c.id :: (tickLoop { s with reminded_coaches := c.id :: s.reminded_coaches } now rest).2)
    else tickLoop s now rest) = _
  rw [if_neg hge]

/-- Every id reminded by the tick loop comes from the looped member list. -/
lemma tickLoop_sent_subset (now : Nat) :
    ∀ l : List Member, ∀ s mid, mid ∈ (tickLoop s now l).2 → ∃ c ∈ l, c.id = mid := by
  intro l
  induction l with
  | nil => intro s mid h; simp [tickLoop] at h
  | cons c rest ih =>
      intro s mid h
      cases hl : lookupState s.coach_voice_states c.id with
      | none =>
          rw [tickLoop_cons_none s now c rest hl] at h
          obtain ⟨d, hd, hdid⟩ := ih _ mid h
          exact ⟨d, List.mem_cons_of_mem c hd, hdid⟩
      | some jt =>
          by_cases hge : 300 ≤ now - jt
          · rw [tickLoop_cons_remind s now c rest jt hl hge] at h
            rcases List.mem_cons.mp h with rfl | h2
            · exact ⟨c, List.mem_cons_self c rest, rfl⟩
            · obtain ⟨d, hd, hdid⟩ := ih _ mid h2
              exact ⟨d, List.mem_cons_of_mem c hd, hdid⟩
          · rw [tickLoop_cons_wait s now c rest jt hl hge] at h
            obtain ⟨d, hd, hdid⟩ := ih _ mid h
            exact ⟨d, List.mem_cons_of_mem c hd, hdid⟩

/-- The reminded set only grows during a tick. -/
lemma tickLoop_reminded_mono (now : Nat) :
    ∀ l : List Member, ∀ s mid, mid ∈ s.reminded_coaches →
      mid ∈ (tickLoop s now l).1.reminded_coaches := by
  intro l
  induction l with
  | nil => intro s mid h; exact h
  | cons c rest ih =>
      intro s mid h
      cases hl : lookupState s.coach_voice_states c.id with
      | none => rw [tickLoop_cons_none s now c rest hl]; exact ih _ mid h
      | some jt =>
          by_cases hge : 300 ≤ now - jt
          · rw [tickLoop_cons_remind s now c rest jt hl hge]
            exact ih _ mid (List.mem_cons_of_mem _ h)
          · rw [tickLoop_cons_wait s now c rest jt hl hge]
            exact ih _ mid h

/-- An id reminded during a tick is in the reminded set afterwards. -/
lemma tickLoop_sent_imp_reminded (now : Nat) :
    ∀ l : List Member, ∀ s mid, mid ∈ (tickLoop s now l).2 →
      mid ∈ (tickLoop s now l).1.reminded_coaches := by
  intro l
  induction l with
  | nil => intro s mid h; simp [tickLoop] at h
  | cons c rest ih =>
      intro s mid h
      cases hl : lookupState s.coach_voice_states c.id with
      | none =>
          rw [tickLoop_cons_none s now c rest hl] at h ⊢
          exact ih _ mid h
      | some jt =>
          by_cases hge : 300 ≤ now - jt
          · rw [tickLoop_cons_remind s now c rest jt hl hge] at h ⊢
            rcases List.mem_cons.mp h with rfl | h2
            · exact tickLoop_reminded_mono now rest _ c.id (List.mem_cons_self _ _)
            · exact ih _ mid h2
          · rw [tickLoop_cons_wait s now c rest jt hl hge] at h ⊢
            exact ih _ mid h

/-- A reminder during a tick implies the coach already had a recorded join
time, at least five minutes (300 s) before the tick. -/
lemma tickLoop_sent_elapsed (now : Nat) :
    ∀ l : List Member, ∀ s mid, mid ∈ (tickLoop s now l).2 →
      ∃ jt, lookupState s.coach_voice_states mid = some jt ∧ 300 ≤ now - jt := by
  intro l
  induction l with
  | nil => intro s mid h; simp [tickLoop] at h
  | cons c rest ih =>
      intro s mid h
      cases hl : lookupState s.coach_voice_states c.id with
      | none =>
          rw [tickLoop_cons_none s now c rest hl] at h
          obtain ⟨jt, hjt, hge⟩ := ih _ mid h
          rw [lookupState_setState] at hjt
          by_cases hmid : mid = c.id
          · rw [if_pos hmid] at hjt
            cases hjt
            omega
          · rw [if_neg hmid] at hjt
            exact ⟨jt, hjt, hge⟩
      | some jt0 =>
          by_cases hge : 300 ≤ now - jt0
          · rw [tickLoop_cons_remind s now c rest jt0 hl hge] at h
            rcases List.mem_cons.mp h with rfl | h2
            · exact ⟨jt0, hl, hge⟩
            · exact ih { s with reminded_coaches := c.id :: s.reminded_coaches } mid h2
          · rw [tickLoop_cons_wait s now c rest jt0 hl hge] at h
            exact ih _ mid h

/-- A join time already recorded before a tick survives the tick. -/
lemma tickLoop_lookup_preserved (now : Nat) :
    ∀ l : List Member, ∀ s mid jt, lookupState s.coach_voice_states mid = some jt →
      lookupState (tickLoop s now l).1.coach_voice_states mid = some jt := by
  intro l
  induction l with
  | nil => intro s mid jt h; exact h
  | cons c rest ih =>
      intro s mid jt h
      cases hl : lookupState s.coach_voice_states c.id with
      | none =>
          rw [tickLoop_cons_none s now c rest hl]
          refine ih _ mid jt ?_
          rw [lookupState_setState]
          by_cases hmid : mid = c.id
          · rw [hmid] at h; rw [h] at hl; cases hl
          · rw [if_neg hmid]; exact h
      | some jt0 =>
          by_cases hge : 300 ≤ now - jt0
          · rw [tickLoop_cons_remind s now c rest jt0 hl hge]
            exact ih _ mid jt h
          · rw [tickLoop_cons_wait s now c rest jt0 hl hge]
            exact ih _ mid jt h

/-- A looped coach with no recorded join time has it set to the tick time
by the end of the loop. -/
lemma tickLoop_initializes (now : Nat) :
    ∀ l : List Member, ∀ s mid, lookupState s.coach_voice_states mid = none →
      (∃ c ∈ l, c.id = mid) →
      lookupState (tickLoop s now l).1.coach_voice_states mid = some now := by
  intro l
  induction l with
  | nil => intro s mid _ hmem; simp at hmem
  | cons c rest ih =>
      intro s mid hnone hmem
      cases hl : lookupState s.coach_voice_states c.id with
      | none =>
          rw [tickLoop_cons_none s now c rest hl]
          by_cases hmid : mid = c.id
          · refine tickLoop_lookup_preserved now rest _ mid now ?_
            rw [lookupState_setState, if_pos hmid]
          · obtain ⟨d, hd, hdid⟩ := hmem
            rcases List.mem_cons.mp hd with rfl | hd2
            · exact absurd hdid.symm hmid
            · refine ih _ mid ?_ ⟨d, hd2, hdid⟩
              rw [lookupState_setState, if_neg hmid]
              exact hnone
      | some jt0 =>
          have hmid : mid ≠ c.id := by
            intro hh
            rw [hh, hl] at hnone
            cases hnone
          have hrest : ∃ d ∈ rest, d.id = mid := by
            obtain ⟨d, hd, hdid⟩ := hmem
            rcases List.mem_cons.mp hd with rfl | hd2
            · exact absurd hdid.symm hmid
            · exact ⟨d, hd2, hdid⟩
          by_cases hge : 300 ≤ now - jt0
          · rw [tickLoop_cons_remind s now c rest jt0 hl hge]
            exact ih _ mid hnone hrest
          · rw [tickLoop_cons_wait s now c rest jt0 hl hge]
            exact ih _ mid hnone hrest

/-- Within one tick each id is reminded at most as often as it occurs in
the looped list. -/
lemma tickLoop_count (now : Nat) :
    ∀ l : List Member, ∀ s mid,
      (tickLoop s now l).2.count mid ≤ (l.map (fun c => c.id)).count mid := by
  intro l
  induction l with
  | nil => intro s mid; simp [tickLoop]
  | cons c rest ih =>
      intro s mid
      cases hl : lookupState s.coach_voice_states c.id with
      | none =>
          rw [tickLoop_cons_none s now c rest hl, List.map_cons, List.count_cons]
          exact le_add_right (le_of_le_of_eq (ih _ mid) rfl)
      | some jt0 =>
          by_cases hge : 300 ≤ now - jt0
          · rw [tickLoop_cons_remind s now c rest jt0 hl hge, List.map_cons,
              List.count_cons, List.count_cons]
            exact Nat.add_le_add (ih _ mid) le_rfl
          · rw [tickLoop_cons_wait s now c rest jt0 hl hge, List.map_cons, List.count_cons]
            exact le_add_right (ih _ mid)

/-- An already-reminded id is filtered out of a tick and receives nothing. -/
lemma cvd_not_sent_of_reminded (s : ReminderState) (t : Nat) (occ : List Member) (mid : Nat)
    (h : mid ∈ s.reminded_coaches) : mid ∉ (check_voice_duration s t occ).2 := by
  intro hs
  obtain ⟨c, hc, hcid⟩ := tickLoop_sent_subset t _ s mid hs
  have h2 := (List.mem_filter.mp hc).2
  have hcon : s.reminded_coaches.contains c.id = true := by
    rw [hcid]
    exact List.elem_iff.mpr h
  rw [hcon] at h2
  simp at h2

/-- Reminders sent during a non-tick event: none. -/
lemma rstep_nontick_sent (s : ReminderState) (e : REvent) (he : ∀ t occ, e ≠ .tick t occ) :
    (rstep s e).2 = [] := by
  cases e with
  | join m t => by_cases hc : isCoach m <;> simp [rstep, hc]
  | leave m => by_cases hc : isCoach m <;> simp [rstep, hc]
  | tick t occ => exact absurd rfl (he t occ)
  | reset t occ => rfl

/-- Join and leave events do not change the reminded set. -/
lemma rstep_join_leave_reminded (s : ReminderState) (e : REvent)
    (he : ∀ t occ, e ≠ .tick t occ) (hr : e.isReset = false) :
    (rstep s e).1.reminded_coaches = s.reminded_coaches := by
  cases e with
  | join m t => by_cases hc : isCoach m <;> simp [rstep, hc]
  | leave m => by_cases hc : isCoach m <;> simp [rstep, hc]
  | tick t occ => exact absurd rfl (he t occ)
  | reset t occ => cases hr

/-- A tick event steps by `check_voice_duration`. -/
lemma rstep_tick_eq (s : ReminderState) (t : Nat) (occ : List Member) :
    rstep s (REvent.tick t occ) = check_voice_duration s t occ := rfl

/-- Once an id is in the reminded set, a reset-free trace sends it nothing
further. -/
lemma traceReminders_zero :
    ∀ evs : List REvent, ∀ s mid, (∀ e ∈ evs, e.isReset = false) →
      mid ∈ s.reminded_coaches → (traceReminders s evs).count mid = 0 := by
  intro evs
  induction evs with
  | nil => intro s mid _ _; rfl
  | cons e rest ih =>
      intro s mid hnr hmem
      show ((rstep s e).2 ++ traceReminders (rstep s e).1 rest).count mid = 0
      rw [List.count_append]
      cases e with
      | join m t =>
          rw [rstep_nontick_sent s (REvent.join m t) (fun _ _ h => REvent.noConfusion h)]
          rw [ih (rstep s (REvent.join m t)).1 mid
            (fun e he => hnr e (List.mem_cons_of_mem _ he))
            (by rw [rstep_join_leave_reminded s (REvent.join m t)
                (fun _ _ h => REvent.noConfusion h) rfl]; exact hmem)]
          rfl
      | leave m =>
          rw [rstep_nontick_sent s (REvent.leave m) (fun _ _ h => REvent.noConfusion h)]
          rw [ih (rstep s (REvent.leave m)).1 mid
            (fun e he => hnr e (List.mem_cons_of_mem _ he))
            (by rw [rstep_join_leave_reminded s (REvent.leave m)
                (fun _ _ h => REvent.noConfusion h) rfl]; exact hmem)]
          rfl
      | tick t occ =>
          rw [rstep_tick_eq]
          rw [List.count_eq_zero.mpr (cvd_not_sent_of_reminded s t occ mid hmem)]
          rw [ih (check_voice_duration s t occ).1 mid
            (fun e he => hnr e (List.mem_cons_of_mem _ he))
            (tickLoop_reminded_mono t _ s mid hmem)]
      | reset t occ =>
          cases hnr (REvent.reset t occ) (List.mem_cons_self _ _)

/-- Along any reset-free trace in which each tick sees a member at most
once, that member is reminded at most once. -/
lemma traceReminders_le_one :
    ∀ evs : List REvent, ∀ s mid, (∀ e ∈ evs, e.isReset = false) →
      (∀ t occ, REvent.tick t occ ∈ evs → (occ.map (fun c => c.id)).count mid ≤ 1) →
      (traceReminders s evs).count mid ≤ 1 := by
  intro evs
  induction evs with
  | nil => intro s mid _ _; exact Nat.zero_le 1
  | cons e rest ih =>
      intro s mid hnr htick
      by_cases hmem : mid ∈ s.reminded_coaches
      · rw [traceReminders_zero (e :: rest) s mid hnr hmem]
        exact Nat.zero_le 1
      · show ((rstep s e).2 ++ traceReminders (rstep s e).1 rest).count mid ≤ 1
        rw [List.count_append]
        cases e with
        | join m t =>
            rw [rstep_nontick_sent s _ (fun _ _ h => REvent.noConfusion h)]
            simpa using ih _ mid (fun e he => hnr e (List.mem_cons_of_mem _ he))
              (fun t2 occ2 hm2 => htick t2 occ2 (List.mem_cons_of_mem _ hm2))
        | leave m =>
            rw [rstep_nontick_sent s _ (fun _ _ h => REvent.noConfusion h)]
            simpa using ih _ mid (fun e he => hnr e (List.mem_cons_of_mem _ he))
              (fun t2 occ2 hm2 => htick t2 occ2 (List.mem_cons_of_mem _ hm2))
        | tick t occ =>
            rw [rstep_tick_eq]
            by_cases hs : mid ∈ (check_voice_duration s t occ).2
            · have hc1 : (check_voice_duration s t occ).2.count mid ≤ 1 := by
                refine le_trans (tickLoop_count t _ s mid) ?_
                refine le_trans (List.Sublist.count_le
                  (List.Sublist.map (fun c => c.id) (List.filter_sublist occ)) mid) ?_
                exact htick t occ (List.mem_cons_self _ _)
              have hrest :
                  (traceReminders (check_voice_duration s t occ).1 rest).count mid = 0 :=
                traceReminders_zero rest _ mid
                  (fun e he => hnr e (List.mem_cons_of_mem _ he))
                  (tickLoop_sent_imp_reminded t _ s mid hs)
              rw [hrest]
              simpa using hc1
            · rw [List.count_eq_zero.mpr hs]
              simpa using ih _ mid (fun e he => hnr e (List.mem_cons_of_mem _ he))
                (fun t2 occ2 hm2 => htick t2 occ2 (List.mem_cons_of_mem _ hm2))
        | reset t occ =>
            cases hnr (REvent.reset t occ) (List.mem_cons_self _ _)

/-! ## Claim theorems: reminder scheduler -/

/-- C7: along any reset-free event trace in which a member occupies at most
one voice slot per tick, the member is reminded at most once; and any
reminder issued by a tick requires a recorded voice-join time at least five
minutes (300 s) before the tick — so a later tick after a reminder produces
nothing further for that member until the daily reset. -/
theorem reminder_once_per_epoch :
    (∀ (s : ReminderState) (evs : List REvent) (mid : Nat),
      (∀ e ∈ evs, e.isReset = false) →
      (∀ t occ, REvent.tick t occ ∈ evs → (occ.map (fun c => c.id)).count mid ≤ 1) →
      (traceReminders s evs).count mid ≤ 1) ∧
    (∀ (s : ReminderState) (t : Nat) (occ : List Member) (mid : Nat),
      mid ∈ (check_voice_duration s t occ).2 →
      ∃ jt, lookupState s.coach_voice_states mid = some jt ∧ 300 ≤ t - jt) :=
  ⟨fun s evs mid hnr htick => traceReminders_le_one evs s mid hnr htick,
   fun s t occ mid h => tickLoop_sent_elapsed t _ s mid h⟩

/-- Witness for `reminder_once_per_epoch`: a coach observed by ticks at
t = 0, 301 and 600 of one epoch is reminded at most once, and the reminder
of the concrete t = 301 tick presupposes the join time recorded at t = 0. -/
theorem reminder_once_per_epoch_witness :
    (traceReminders ⟨[], []⟩
        [REvent.tick 0 [⟨7, "C", [1329341459329191948], false⟩],
         REvent.tick 301 [⟨7, "C", [1329341459329191948], false⟩],
         REvent.tick 600 [⟨7, "C", [1329341459329191948], false⟩]]).count 7 ≤ 1 ∧
    (∃ jt, lookupState [(7, 0)] 7 = some jt ∧ 300 ≤ 301 - jt) :=
  ⟨reminder_once_per_epoch.1 ⟨[], []⟩
      [REvent.tick 0 [⟨7, "C", [1329341459329191948], false⟩],
       REvent.tick 301 [⟨7, "C", [1329341459329191948], false⟩],
       REvent.tick 600 [⟨7, "C", [1329341459329191948], false⟩]] 7
      (by intro e he; simp at he; rcases he with rfl | rfl | rfl <;> rfl)
      (by
        intro t occ h
        simp at h
        rcases h with ⟨_, hocc⟩ | ⟨_, hocc⟩ | ⟨_, hocc⟩ <;> subst hocc <;> decide),
   reminder_once_per_epoch.2 ⟨[(7, 0)], []⟩ 301
      [⟨7, "C", [1329341459329191948], false⟩] 7 (by decide)⟩

/-- C8: a tracked voice occupant with no timer entry (e.g. after a process
restart) has its timer initialised to the tick time, receives no reminder
on that tick, and any reminder produced by a later tick requires at least
five further minutes measured from that initialisation. -/
theorem tick_initializes_timer (s : ReminderState) (now : Nat) (occ : List Member)
    (m : Member) (hc : isCoach m = true) (hm : m ∈ occ)
    (hnr : s.reminded_coaches.contains m.id = false)
    (hnone : lookupState s.coach_voice_states m.id = none) :
    lookupState (check_voice_duration s now occ).1.coach_voice_states m.id = some now ∧
    m.id ∉ (check_voice_duration s now occ).2 ∧
    (∀ t2 occ2, m.id ∈ (check_voice_duration (check_voice_duration s now occ).1 t2 occ2).2 →
      300 ≤ t2 - now) := by
  have hfilter :
      m ∈ occ.filter (fun x => isCoach x && !s.reminded_coaches.contains x.id) :=
    List.mem_filter.mpr ⟨hm, by rw [hc, hnr]; rfl⟩
  refine ⟨?_, ?_, ?_⟩
  · exact tickLoop_initializes now _ s m.id hnone ⟨m, hfilter, rfl⟩
  · intro hs
    obtain ⟨jt, hjt, _⟩ := tickLoop_sent_elapsed now _ s m.id hs
    rw [hnone] at hjt
    cases hjt
  · intro t2 occ2 hs
    obtain ⟨jt, hjt, hge⟩ := tickLoop_sent_elapsed t2 _ _ m.id hs
    have hnow :
        lookupState (check_voice_duration s now occ).1.coach_voice_states m.id = some now :=
      tickLoop_initializes now _ s m.id hnone ⟨m, hfilter, rfl⟩
    rw [hnow] at hjt
    cases hjt
    exact hge

/-- Witness for `tick_initializes_timer`: a freshly restarted state
initialises the timer of a coach already in voice and sends nothing. -/
theorem tick_initializes_timer_witness :
    lookupState
        (check_voice_duration ⟨[], []⟩ 50
          [⟨7, "C", [1329341459329191948], false⟩]).1.coach_voice_states 7 = some 50 ∧
    7 ∉ (check_voice_duration ⟨[], []⟩ 50 [⟨7, "C", [1329341459329191948], false⟩]).2 :=
  ⟨(tick_initializes_timer ⟨[], []⟩ 50 [⟨7, "C", [1329341459329191948], false⟩]
      ⟨7, "C", [1329341459329191948], false⟩ (by decide) (by decide) rfl rfl).1,
   (tick_initializes_timer ⟨[], []⟩ 50 [⟨7, "C", [1329341459329191948], false⟩]
      ⟨7, "C", [1329341459329191948], false⟩ (by decide) (by decide) rfl rfl).2.1⟩

/-! ## Helper lemmas: report generator -/

/-- Length of an appended string. -/
lemma strLength_append (a b : String) : (a ++ b).length = a.length + b.length := by
  cases a with
  | mk d1 =>
      cases b with
      | mk d2 =>
          show (d1 ++ d2).length = d1.length + d2.length
          exact List.length_append d1 d2

/-- Truncation keeps every field value within the 1024-character budget. -/
lemma truncValue_length (s : String) : (truncValue s).length ≤ 1024 := by
  rw [truncValue]
  by_cases h : 1024 < s.length
  · rw [if_pos h, strLength_append]
    have hs : 1021 ≤ s.data.length := by
      have h2 : 1024 < s.data.length := h
      omega
    have h1 : (String.mk (s.data.take 1021)).length = 1021 := by
      show (s.data.take 1021).length = 1021
      rw [List.length_take]
      exact Nat.min_eq_left hs
    rw [h1]
    decide
  · rw [if_neg h]
    omega

/-- The fields of all pages produced by the report loop, flattened, are the
already-flushed fields, the fields under construction, and one truncated
field per remaining session row, in order. -/
lemma reportLoop_bind (g : Guild) (season : Int) :
    ∀ data : List SessionData, ∀ embeds cur cnt, cur.fields.length = cnt →
      ((reportLoop g season embeds cur cnt data).bind (fun e => e.fields)) =
        (embeds.bind (fun e => e.fields)) ++ cur.fields ++ data.map (sessionField g) := by
  intro data
  induction data with
  | nil =>
      intro embeds cur cnt hcnt
      rw [reportLoop]
      by_cases hpos : 0 < cnt
      · rw [if_pos hpos]
        simp
      · rw [if_neg hpos]
        have hz : cur.fields = [] := by
          have : cur.fields.length = 0 := by omega
          exact List.length_eq_zero.mp this
        simp [hz]
  | cons session rest ih =>
      intro embeds cur cnt hcnt
      rw [reportLoop]
      by_cases hge : 25 ≤ cnt
      · rw [if_pos hge]
        rw [ih (embeds ++ [cur]) _ 1 (by simp)]
        simp [contEmbed]
      · rw [if_neg hge]
        rw [ih embeds _ (cnt + 1) (by simp [hcnt])]
        simp

/-- Every page produced by the report loop holds at most 25 fields. -/
lemma reportLoop_fields_le (g : Guild) (season : Int) :
    ∀ data : List SessionData, ∀ embeds cur cnt, cur.fields.length = cnt → cnt ≤ 25 →
      (∀ e ∈ embeds, e.fields.length ≤ 25) →
      ∀ e ∈ reportLoop g season embeds cur cnt data, e.fields.length ≤ 25 := by
  intro data
  induction data with
  | nil =>
      intro embeds cur cnt hcnt hle hall e he
      rw [reportLoop] at he
      by_cases hpos : 0 < cnt
      · rw [if_pos hpos] at he
        rcases List.mem_append.mp he with h1 | h2
        · exact hall e h1
        · rcases List.mem_singleton.mp h2 with rfl
          omega
      · rw [if_neg hpos] at he
        exact hall e he
  | cons session rest ih =>
      intro embeds cur cnt hcnt hle hall e he
      rw [reportLoop] at he
      by_cases hge : 25 ≤ cnt
      · rw [if_pos hge] at he
        refine ih (embeds ++ [cur]) _ 1 (by simp) (by omega) ?_ e he
        intro e2 he2
        rcases List.mem_append.mp he2 with h1 | h2
        · exact hall e2 h1
        · rcases List.mem_singleton.mp h2 with rfl
          omega
      · rw [if_neg hge] at he
        exact ih embeds _ (cnt + 1) (by simp [hcnt]) (by omega) hall e he

/-- Every field value on every page produced by the report loop respects
the 1024-character budget. -/
lemma reportLoop_values_le (g : Guild) (season : Int) :
    ∀ data : List SessionData, ∀ embeds cur cnt,
      (∀ e ∈ embeds, ∀ f ∈ e.fields, f.value.length ≤ 1024) →
      (∀ f ∈ cur.fields, f.value.length ≤ 1024) →
      ∀ e ∈ reportLoop g season embeds cur cnt data, ∀ f ∈ e.fields,
        f.value.length ≤ 1024 := by
  intro data
  induction data with
  | nil =>
      intro embeds cur cnt hall hcur e he
      rw [reportLoop] at he
      by_cases hpos : 0 < cnt
      · rw [if_pos hpos] at he
        rcases List.mem_append.mp he with h1 | h2
        · exact hall e h1
        · rcases List.mem_singleton.mp h2 with rfl
          exact hcur
      · rw [if_neg hpos] at he
        exact hall e he
  | cons session rest ih =>
      intro embeds cur cnt hall hcur e he
      rw [reportLoop] at he
      by_cases hge : 25 ≤ cnt
      · rw [if_pos hge] at he
        refine ih (embeds ++ [cur]) _ 1 ?_ ?_ e he
        · intro e2 he2
          rcases List.mem_append.mp he2 with h1 | h2
          · exact hall e2 h1
          · rcases List.mem_singleton.mp h2 with rfl
            exact hcur
        · intro f hf
          rcases List.mem_singleton.mp hf with rfl
          exact truncValue_length _
      · rw [if_neg hge] at he
        refine ih embeds _ (cnt + 1) hall ?_ e he
        intro f hf
        rcases List.mem_append.mp hf with h1 | h2
        · exact hcur f h1
        · rcases List.mem_singleton.mp h2 with rfl
          exact truncValue_length _

/-- Footer numbering preserves the page count. -/
lemma addFooters_length (total : Nat) :
    ∀ l : List Embed, ∀ k, (addFooters total k l).length = l.length := by
  intro l
  induction l with
  | nil => intro k; rfl
  | cons e rest ih => intro k; simp [addFooters, ih]

/-- The page at index `i` after footer numbering is the original page with
footer `"Page (k+i)/total"`. -/
lemma addFooters_get? (total : Nat) :
    ∀ l : List Embed, ∀ k i, (addFooters total k l).get? i =
      (l.get? i).map (fun e => { e with footer := some s!"Page {k + i}/{total}" }) := by
  intro l
  induction l with
  | nil => intro k i; rfl
  | cons e rest ih =>
      intro k i
      cases i with
      | zero => simp [addFooters]
      | succ j =>
          rw [addFooters]
          show (addFooters total (k + 1) rest).get? j = _
          rw [ih (k + 1) j]
          have harith : k + 1 + j = k + (j + 1) := by omega
          rw [harith]
          rfl

/-- Footer numbering does not change the fields of any page. -/
lemma addFooters_mem (total : Nat) :
    ∀ l : List Embed, ∀ k, ∀ e ∈ addFooters total k l, ∃ e0 ∈ l, e.fields = e0.fields := by
  intro l
  induction l with
  | nil => intro k e he; cases he
  | cons e0 rest ih =>
      intro k e he
      rw [addFooters] at he
      rcases List.mem_cons.mp he with rfl | h2
      · exact ⟨e0, List.mem_cons_self _ _, rfl⟩
      · obtain ⟨e1, he1, hf⟩ := ih (k + 1) e h2
        exact ⟨e1, List.mem_cons_of_mem _ he1, hf⟩

/-- Footer numbering preserves the flattened field sequence. -/
lemma addFooters_bind (total : Nat) :
    ∀ l : List Embed, ∀ k,
      ((addFooters total k l).bind (fun e => e.fields)) = l.bind (fun e => e.fields) := by
  intro l
  induction l with
  | nil => intro k; rfl
  | cons e rest ih =>
      intro k
      rw [addFooters]
      show e.fields ++ (addFooters total (k + 1) rest).bind (fun e => e.fields) = _
      rw [ih (k + 1)]
      rfl

/-- C9 counterexample: an empty result set yields exactly one "No Data"
page, but that page is returned before the footer loop runs and carries NO
"i/total" footer, contradicting "every page carries an i/total footer". -/
theorem empty_report_no_footer_cex :
    create_report_embeds [] 1 "Daily" "2026-01-01 00:00:00" ⟨[]⟩ =
      [{ title := "Attendance Report - Season 1",
         description := some "Daily report generated at 2026-01-01 00:00:00",
         fields := [{ name := "No Data",
                      value := "No attendance records found for the specified period.",
                      inline := false }],
         footer := none }] := by decide

/-- C9 (amended): report rendering always returns a non-empty page list;
every page holds at most 25 fields, each within the 1024-character budget
(overflow is truncated with an ellipsis by `truncValue` inside
`sessionField`); empty data yields exactly the single footer-less "No
Data" page; and for non-empty data the pages carry exactly one truncated
field per session row, in order, with every page numbered
"Page i/total" in its footer. -/
theorem report_pages_bounded (data : List SessionData) (season : Int)
    (granularity now : String) (g : Guild) :
    create_report_embeds data season granularity now g ≠ [] ∧
    (∀ e ∈ create_report_embeds data season granularity now g,
      e.fields.length ≤ 25 ∧ ∀ f ∈ e.fields, f.value.length ≤ 1024) ∧
    (data = [] → create_report_embeds data season granularity now g =
      [noDataEmbed season granularity now]) ∧
    (data ≠ [] →
      ((create_report_embeds data season granularity now g).bind (fun e => e.fields)) =
        data.map (sessionField g) ∧
      ∀ i, i < (create_report_embeds data season granularity now g).length →
        ∃ e, (create_report_embeds data season granularity now g).get? i = some e ∧
          e.footer =
            some s!"Page {i + 1}/{(create_report_embeds data season granularity now g).length}") := by
  by_cases hdata : data = []
  · subst hdata
    have h0 : create_report_embeds [] season granularity now g =
        [noDataEmbed season granularity now] := rfl
    refine ⟨by rw [h0]; exact List.cons_ne_nil _ _, ?_, fun _ => h0, fun h => absurd rfl h⟩
    intro e he
    rw [h0] at he
    rcases List.mem_singleton.mp he with rfl
    constructor
    · show (1 : Nat) ≤ 25
      decide
    · intro f hf
      rcases List.mem_singleton.mp hf with rfl
      decide
  · have hEmp : data.isEmpty = false := by
      cases data with
      | nil => exact absurd rfl hdata
      | cons a l => rfl
    have hmain : create_report_embeds data season granularity now g =
        addFooters (reportLoop g season [] (headEmbed season granularity now) 0 data).length 1
          (reportLoop g season [] (headEmbed season granularity now) 0 data) := by
      rw [create_report_embeds, hEmp]
      rfl
    have hbind0 :
        ((reportLoop g season [] (headEmbed season granularity now) 0 data).bind
          (fun e => e.fields)) = data.map (sessionField g) := by
      simpa using reportLoop_bind g season data [] (headEmbed season granularity now) 0 rfl
    have hr0 : reportLoop g season [] (headEmbed season granularity now) 0 data ≠ [] := by
      intro hnil
      rw [hnil] at hbind0
      have : data.map (sessionField g) = [] := hbind0.symm
      exact hdata (List.map_eq_nil.mp this)
    refine ⟨?_, ?_, fun h => absurd h hdata, fun _ => ⟨?_, ?_⟩⟩
    · rw [hmain]
      intro hnil
      have := congrArg List.length hnil
      rw [addFooters_length] at this
      exact hr0 (List.length_eq_zero.mp this)
    · intro e he
      rw [hmain] at he
      obtain ⟨e0, he0, hf⟩ := addFooters_mem _ _ 1 e he
      rw [hf]
      constructor
      · exact reportLoop_fields_le g season data []
          (headEmbed season granularity now) 0 rfl (by omega)
          (fun e2 he2 => absurd he2 (List.not_mem_nil e2)) e0 he0
      · exact reportLoop_values_le g season data []
          (headEmbed season granularity now) 0
          (fun e2 he2 => absurd he2 (List.not_mem_nil e2))
          (fun f hf2 => absurd hf2 (List.not_mem_nil f)) e0 he0
    · rw [hmain, addFooters_bind]
      exact hbind0
    · intro i hi
      rw [hmain] at hi ⊢
      rw [addFooters_length] at hi
      rw [addFooters_get? _ _ 1 i]
      rw [List.get?_eq_get hi]
      refine ⟨_, rfl, ?_⟩
      rw [addFooters_length]
      have : 1 + i = i + 1 := by omega
      rw [this]

/-- Witness for `report_pages_bounded`: the one-row report gets page
footer "Page 1/1". -/
theorem report_pages_bounded_witness :
    ∃ e, (create_report_embeds [⟨"2026-01-01", "Agent Masterclass", "Advanced", 1, 0,
        some "1:0"⟩] 1 "Daily" "now" ⟨[⟨1, "Alice", [], false⟩]⟩).get? 0 = some e ∧
      e.footer = some "Page 1/1" := by
  obtain ⟨e, he, hf⟩ := ((report_pages_bounded
      [⟨"2026-01-01", "Agent Masterclass", "Advanced", 1, 0, some "1:0"⟩]
      1 "Daily" "now" ⟨[⟨1, "Alice", [], false⟩]⟩).2.2.2
    (List.cons_ne_nil _ _)).2 0 (by decide)
  exact ⟨e, he, by rw [hf]; decide⟩

/-! ## Helper lemmas: user synchronisation -/

/-- After a member has been synced: some `user` row carries its discord id,
and every row carrying it holds exactly the canonical values the sync
writes.  Vacuous for members the sync skips. -/
def syncedFor (m : Member) (t : List UserRow) : Prop :=
  match syncEligible m with
  | none => True
  | some (ut, sg) =>
      (∃ u ∈ t, u.discord_id = toString m.id) ∧
      ∀ u ∈ t, u.discord_id = toString m.id → u = canonRow m ut sg

/-- A skipped member leaves the accumulator untouched. -/
lemma syncStep_skip (acc : List UserRow × Nat × Nat) (m : Member)
    (h : syncEligible m = none) : syncStep acc m = acc := by
  simp [syncStep, h]

/-- Processing a member leaves it synced. -/
lemma syncStep_establishes (m : Member) (acc : List UserRow × Nat × Nat) :
    syncedFor m (syncStep acc m).1 := by
  cases helig : syncEligible m with
  | none => simp [syncedFor, helig, syncStep_skip acc m helig]
  | some p =>
      obtain ⟨ut, sg⟩ := p
      cases hany : acc.1.any (fun u => u.discord_id = toString m.id) with
      | true =>
          simp only [syncStep, helig, hany, if_true]
          rw [syncedFor, helig]
          constructor
          · obtain ⟨u0, hu0, hk0⟩ := List.any_eq_true.mp hany
            refine ⟨canonRow m ut sg, List.mem_map.mpr ⟨u0, hu0, ?_⟩, rfl⟩
            rw [if_pos (of_decide_eq_true hk0)]
          · intro u hu hk
            obtain ⟨u1, hu1, hfu⟩ := List.mem_map.mp hu
            by_cases h1 : u1.discord_id = toString m.id
            · rw [if_pos h1] at hfu
              exact hfu.symm
            · rw [if_neg h1] at hfu
              rw [← hfu] at hk
              exact absurd hk h1
      | false =>
          simp only [syncStep, helig, hany, if_false]
          rw [syncedFor, helig]
          constructor
          · exact ⟨canonRow m ut sg, List.mem_append_right _ (List.mem_singleton.mpr rfl), rfl⟩
          · intro u hu hk
            rcases List.mem_append.mp hu with h1 | h2
            · have := List.any_eq_false.mp hany u h1
              exact absurd (decide_eq_true hk) this
            · exact List.mem_singleton.mp h2

/-- Processing a member with a different discord id preserves syncedness. -/
lemma syncStep_preserves (m m2 : Member) (acc : List UserRow × Nat × Nat)
    (hne : toString m2.id ≠ toString m.id) (hP : syncedFor m acc.1) :
    syncedFor m (syncStep acc m2).1 := by
  cases helig : syncEligible m with
  | none => rw [syncedFor, helig]; trivial
  | some p =>
      obtain ⟨ut, sg⟩ := p
      rw [syncedFor, helig] at hP
      obtain ⟨⟨u0, hu0, hk0⟩, hall⟩ := hP
      rw [syncedFor, helig]
      cases helig2 : syncEligible m2 with
      | none => rw [syncStep_skip acc m2 helig2]; exact ⟨⟨u0, hu0, hk0⟩, hall⟩
      | some p2 =>
          obtain ⟨ut2, sg2⟩ := p2
          cases hany : acc.1.any (fun u => u.discord_id = toString m2.id) with
          | true =>
              simp only [syncStep, helig2, hany, if_true]
              constructor
              · refine ⟨u0, List.mem_map.mpr ⟨u0, hu0, ?_⟩, hk0⟩
                rw [if_neg (by rw [hk0]; exact fun hh => hne hh.symm)]
              · intro u hu hk
                obtain ⟨u1, hu1, hfu⟩ := List.mem_map.mp hu
                by_cases h1 : u1.discord_id = toString m2.id
                · rw [if_pos h1] at hfu
                  rw [← hfu] at hk
                  exact absurd hk.symm (by rw [show (canonRow m2 ut2 sg2).discord_id
                    = toString m2.id from rfl]; exact fun hh => hne hh.symm)
                · rw [if_neg h1] at hfu
                  rw [← hfu] at hk ⊢
                  exact hall u1 hu1 hk
          | false =>
              simp only [syncStep, helig2, hany, if_false]
              constructor
              · exact ⟨u0, List.mem_append_left _ hu0, hk0⟩
              · intro u hu hk
                rcases List.mem_append.mp hu with h1 | h2
                · exact hall u h1 hk
                · rcases List.mem_singleton.mp h2 with rfl
                  exact absurd hk.symm (by rw [show (canonRow m2 ut2 sg2).discord_id
                    = toString m2.id from rfl]; exact fun hh => hne hh.symm)

/-- Syncedness of a member survives processing members with other ids. -/
lemma syncFold_preserves (m : Member) :
    ∀ ms : List Member, ∀ acc : List UserRow × Nat × Nat,
      toString m.id ∉ ms.map (fun x => toString x.id) → syncedFor m acc.1 →
      syncedFor m (ms.foldl syncStep acc).1 := by
  intro ms
  induction ms with
  | nil => intro acc _ hP; exact hP
  | cons m2 rest ih =>
      intro acc hnotin hP
      rw [List.foldl_cons]
      refine ih (syncStep acc m2) (fun h => hnotin (List.mem_cons_of_mem _ h)) ?_
      refine syncStep_preserves m m2 acc (fun hh => hnotin ?_) hP
      rw [List.map_cons, ← hh]
      exact List.mem_cons_self _ _

/-- After one pass over a duplicate-free roster every member is synced. -/
lemma syncFold_establishes :
    ∀ ms : List Member, ∀ acc : List UserRow × Nat × Nat,
      (ms.map (fun x => toString x.id)).Nodup →
      ∀ m ∈ ms, syncedFor m (ms.foldl syncStep acc).1 := by
  intro ms
  induction ms with
  | nil => intro acc _ m hm; cases hm
  | cons m2 rest ih =>
      intro acc hnd m hm
      rw [List.map_cons, List.nodup_cons] at hnd
      rw [List.foldl_cons]
      rcases List.mem_cons.mp hm with rfl | hm2
      · exact syncFold_preserves m rest (syncStep acc m) hnd.1
          (syncStep_establishes m acc)
      · exact ih (syncStep acc m2) hnd.2 m hm2

/-- A pass over a roster whose members are all already synced performs no
insert and leaves the table unchanged. -/
lemma syncFold_noop :
    ∀ ms : List Member, ∀ (t : List UserRow) (a u : Nat),
      (∀ m ∈ ms, syncedFor m t) →
      (ms.foldl syncStep (t, a, u)).1 = t ∧ (ms.foldl syncStep (t, a, u)).2.1 = a := by
  intro ms
  induction ms with
  | nil => intro t a u _; exact ⟨rfl, rfl⟩
  | cons m rest ih =>
      intro t a u hps
      rw [List.foldl_cons]
      cases helig : syncEligible m with
      | none =>
          rw [syncStep_skip (t, a, u) m helig]
          exact ih t a u (fun m2 hm2 => hps m2 (List.mem_cons_of_mem _ hm2))
      | some p =>
          obtain ⟨ut, sg⟩ := p
          have hP := hps m (List.mem_cons_self _ _)
          rw [syncedFor, helig] at hP
          obtain ⟨⟨u0, hu0, hk0⟩, hall⟩ := hP
          have hany : t.any (fun x => x.discord_id = toString m.id) = true :=
            List.any_eq_true.mpr ⟨u0, hu0, decide_eq_true hk0⟩
          have hmap : t.map
              (fun x => if x.discord_id = toString m.id then canonRow m ut sg else x) = t := by
            have : ∀ x ∈ t,
                (if x.discord_id = toString m.id then canonRow m ut sg else x) = id x := by
              intro x hx
              by_cases hxk : x.discord_id = toString m.id
              · rw [if_pos hxk, (hall x hx hxk).symm]; rfl
              · rw [if_neg hxk]; rfl
            rw [List.map_congr_left this, List.map_id]
          have hstep : syncStep (t, a, u) m =
              (t, a, u + 1) := by
            simp only [syncStep, helig, hany, if_true]
            rw [hmap]
          rw [hstep]
          exact ih t a (u + 1) (fun m2 hm2 => hps m2 (List.mem_cons_of_mem _ hm2))

/-! ## Claim theorem: user synchronisation -/

/-- C10: running `sync_users` twice on an unchanged roster with
pairwise-distinct member ids is idempotent — the second run inserts zero
users (`users_added = 0`), reports success, and leaves every row of the
user table (name, user_type, skill_group, is_active) exactly as the first
run left it. -/
theorem sync_users_idempotent (table : List UserRow) (members : List Member)
    (hids : (members.map (fun m => toString m.id)).Nodup) :
    (sync_users (sync_users table true members).1 true members).2.2.1 = 0 ∧
    (sync_users (sync_users table true members).1 true members).1 =
      (sync_users table true members).1 ∧
    (sync_users (sync_users table true members).1 true members).2.1 = true := by
  have hsynced : ∀ m ∈ members, syncedFor m (sync_users table true members).1 :=
    fun m hm => syncFold_establishes members (table, 0, 0) hids m hm
  have hnoop := syncFold_noop members (sync_users table true members).1 0 0 hsynced
  exact ⟨hnoop.2, hnoop.1, rfl⟩

/-- Witness for `sync_users_idempotent`: a two-member roster (one student,
one coach) synced twice into an empty table gains no users and keeps the
same rows on the second run. -/
theorem sync_users_idempotent_witness :
    (sync_users
        (sync_users [] true
          [⟨11, "S", [3456789012345678, 1329349873790881853], false⟩,
           ⟨7, "C", [1329341459329191948], false⟩]).1 true
        [⟨11, "S", [3456789012345678, 1329349873790881853], false⟩,
         ⟨7, "C", [1329341459329191948], false⟩]).2.2.1 = 0 :=
  (sync_users_idempotent []
    [⟨11, "S", [3456789012345678, 1329349873790881853], false⟩,
     ⟨7, "C", [1329341459329191948], false⟩] (by decide)).1
